import Mathlib

/-!
Shallow embedding of the catalog-automation-engine validation + metrics core.

Sources embedded here:
- validators/price_validator.py      (PriceValidator.validate)
- validators/sku_validator.py        (SKUValidator.validate)
- validators/inventory_validator.py  (InventoryValidator.validate)
- reporting/metrics.py               (calculate_metrics, generate_executive_summary)
- config.py                          (validation threshold constants)

Modelling conventions:
- A pandas DataFrame row becomes a `Record`.  The outcome of Python's
  `float(price)` / `int(inventory_count)` conversions is part of the input
  (`priceParse` / `invParse`); `none` stands for a ValueError/TypeError.
  A successfully parsed price is an IEEE-754 double, modelled as `PVal`:
  an exact rational, an infinity, or NaN, with the IEEE comparison rules
  (every comparison against NaN is false).
- `priceRaw` / `invRaw` hold the text Python interpolates for the raw field
  value in error messages.
- Python's `re.match` is embedded for the linear fixed-length pattern
  sublanguage that covers the configured SKU patterns: a sequence of literal
  characters and digit classes, with an optional trailing `$` anchor
  (`Pat.endAnchor`).  `re.match` anchors at the start of the string only.
- Numeric rendering of parsed floats inside `issue_description` strings
  (`pvalRepr`, `ratRepr`) abbreviates Python's float repr; no claim depends
  on those characters.
-/

/-- Shared error contract: `{"sku": ..., "issue_type": ..., "issue_description": ...}`. -/
structure ErrorRecord where
  sku : String
  issue_type : String
  issue_description : String
deriving DecidableEq

/-- A successfully parsed Python float: NaN, an infinity, or a finite value
(every finite IEEE double is an exact rational). -/
inductive PVal where
  | nan
  | posInf
  | negInf
  | num (q : ℚ)
deriving DecidableEq

/-- IEEE comparison `v <= m` for a parsed float against a finite threshold:
false whenever `v` is NaN. -/
def PVal.le (v : PVal) (m : ℚ) : Bool :=
  match v with
  | .nan => false
  | .posInf => false
  | .negInf => true
  | .num q => decide (q ≤ m)

/-- IEEE comparison `v >= m` for a parsed float against a finite threshold:
false whenever `v` is NaN. -/
def PVal.ge (v : PVal) (m : ℚ) : Bool :=
  match v with
  | .nan => false
  | .posInf => true
  | .negInf => false
  | .num q => decide (m ≤ q)

/-- One catalog row.  `priceParse` is the outcome of `float(row["price"])`
(`none` = ValueError/TypeError); `invParse` the outcome of
`int(row["inventory_count"])`.  The `Raw` fields are the interpolated text of
the raw values, used only inside `issue_description` strings. -/
structure Record where
  sku : String
  priceRaw : String
  priceParse : Option PVal
  invRaw : String
  invParse : Option Int
deriving DecidableEq

/-- Abbreviated rendering of a parsed float for message interpolation. -/
def ratRepr (q : ℚ) : String := toString q

/-- Abbreviated rendering of a parsed float for message interpolation. -/
def pvalRepr (v : PVal) : String :=
  match v with
  | .nan => "nan"
  | .posInf => "inf"
  | .negInf => "-inf"
  | .num q => ratRepr q

/-! ### config.py constants -/

/-- config.py: `MIN_PRICE = 0.01`. -/
def MIN_PRICE : ℚ := 1/100

/-- config.py: `MAX_PRICE = 9999.99`. -/
def MAX_PRICE : ℚ := 999999/100

/-- config.py: `MIN_INVENTORY = 0`. -/
def MIN_INVENTORY : Int := 0

/-- config.py: `LOW_STOCK_THRESHOLD = 5`. -/
def LOW_STOCK_THRESHOLD : Int := 5

/-! ### validators/price_validator.py -/

structure PriceValidator where
  min_price : ℚ
  max_price : ℚ

/-- The body of the `for _, row in dataframe.iterrows()` loop of
`PriceValidator.validate`: the errors contributed by one row. -/
def PriceValidator.checkRecord (v : PriceValidator) (r : Record) : List ErrorRecord :=
  match r.priceParse with
  | none =>
      [⟨r.sku, "invalid_price_format",
        "Price '" ++ r.priceRaw ++ "' is not a valid number"⟩]
  | some pv =>
      if pv.le v.min_price then
        [⟨r.sku, "price_too_low",
          "Price " ++ pvalRepr pv ++ " must be > " ++ ratRepr v.min_price⟩]
      else if pv.ge v.max_price then
        [⟨r.sku, "price_too_high",
          "Price " ++ pvalRepr pv ++ " must be < " ++ ratRepr v.max_price⟩]
      else []

/-- `PriceValidator.validate(dataframe)`. -/
def PriceValidator.validate (v : PriceValidator) (df : List Record) : List ErrorRecord :=
  df.flatMap v.checkRecord

/-! ### validators/inventory_validator.py -/

structure InventoryValidator where
  min_inventory : Int
  low_stock_threshold : Int

/-- The loop body of `InventoryValidator.validate`: errors from one row. -/
def InventoryValidator.checkRecord (w : InventoryValidator) (r : Record) : List ErrorRecord :=
  match r.invParse with
  | none =>
      [⟨r.sku, "invalid_inventory_format",
        "Inventory '" ++ r.invRaw ++ "' is not a valid integer"⟩]
  | some iv =>
      if iv < w.min_inventory then
        [⟨r.sku, "negative_inventory",
          "Inventory " ++ toString iv ++ " cannot be negative"⟩]
      else if iv < w.low_stock_threshold then
        [⟨r.sku, "low_stock_warning",
          "Inventory " ++ toString iv ++ " is below threshold of "
            ++ toString w.low_stock_threshold⟩]
      else []

/-- `InventoryValidator.validate(dataframe)`. -/
def InventoryValidator.validate (w : InventoryValidator) (df : List Record) : List ErrorRecord :=
  df.flatMap w.checkRecord

/-! ### validators/sku_validator.py -/

/-- One atom of the embedded regex sublanguage: a literal character or `\d`. -/
inductive Tok where
  | lit (c : Char)
  | digit
deriving DecidableEq

/-- Does one pattern atom match one character? -/
def Tok.matchesChar (t : Tok) (c : Char) : Bool :=
  match t with
  | .lit a => a = c
  | .digit => c.isDigit

/-- A regex of the linear sublanguage `^atom...atom` with an optional trailing
`$`.  `src` is the regex source text (used only for message interpolation);
`toks` / `endAnchor` are its parsed form, which gives the semantics. -/
structure Pat where
  src : String
  toks : List Tok
  endAnchor : Bool

/-- Match a token sequence against the front of a character list, returning
the unconsumed suffix on success. -/
def matchToks : List Tok → List Char → Option (List Char)
  | [], s => some s
  | _ :: _, [] => none
  | t :: ts, c :: cs => if t.matchesChar c then matchToks ts cs else none

/-- Python `re.match(pat, s)` truthiness: the pattern must match a *prefix*
of `s` (anchored at the start only); a trailing `$` additionally forces the
match to reach the end of the string or the position immediately before a
single trailing newline (Python `$` semantics without `re.MULTILINE`). -/
def reMatch (p : Pat) (s : String) : Bool :=
  match matchToks p.toks s.data with
  | none => false
  | some rest => !p.endAnchor || rest.isEmpty || rest == ['\n']

/-- A *full* match: the pattern consumes the entire string.  This is the
spec's reading ("does not fully match the anchored pattern"). -/
def fullMatch (p : Pat) (s : String) : Bool :=
  matchToks p.toks s.data == some ([] : List Char)

/-- config.py: `SKU_PATTERN = r"^SKU-\d{5}$"`. -/
def SKU_PATTERN : Pat :=
  ⟨"^SKU-\\d{5}$",
   [.lit 'S', .lit 'K', .lit 'U', .lit '-', .digit, .digit, .digit, .digit, .digit],
   true⟩

structure SKUValidator where
  sku_pattern : Pat

/-- The `invalid_sku_format` error record for one row. -/
def skuFormatError (p : Pat) (sku : String) : ErrorRecord :=
  ⟨sku, "invalid_sku_format",
   "SKU '" ++ sku ++ "' does not match pattern " ++ p.src⟩

/-- The `duplicate_sku` error record for one sku value with its frequency. -/
def dupError (sku : String) (n : Nat) : ErrorRecord :=
  ⟨sku, "duplicate_sku",
   "SKU '" ++ sku ++ "' appears " ++ toString n ++ " times in catalog"⟩

/-- The row loop of `SKUValidator.validate`.  `counts` is the full sku column
(frequencies are taken over it, as `Counter(sku_column)` does); `reported`
models the `reported_duplicates` set. -/
def SKUValidator.go (v : SKUValidator) (counts : List String) :
    List Record → List String → List ErrorRecord
  | [], _ => []
  | r :: rs, reported =>
      let fmtErrs :=
        if reMatch v.sku_pattern r.sku then [] else [skuFormatError v.sku_pattern r.sku]
      if decide (1 < counts.count r.sku) && !(reported.contains r.sku) then
        fmtErrs ++ [dupError r.sku (counts.count r.sku)]
          ++ v.go counts rs (r.sku :: reported)
      else
        fmtErrs ++ v.go counts rs reported

/-- `SKUValidator.validate(dataframe)`. -/
def SKUValidator.validate (v : SKUValidator) (df : List Record) : List ErrorRecord :=
  v.go (df.map Record.sku) df []

/-! ### reporting/metrics.py — calculate_metrics -/

/-- The distinct values of `l` in order of first occurrence (the key order of
an insertion-ordered Python dict / `Counter` built by scanning `l`). -/
def dedupFirst : List String → List String
  | [] => []
  | x :: xs => x :: dedupFirst (xs.filter fun y => decide (y ≠ x))
termination_by l => l.length
decreasing_by
  simp only [List.length_cons]
  exact Nat.lt_succ_of_le (List.length_filter_le _ _)

/-- `collections.Counter(l)`: each distinct value of `l`, in first-seen
order, paired with its number of occurrences. -/
def counter : List String → List (String × Nat)
  | [] => []
  | x :: xs => (x, xs.count x + 1) :: counter (xs.filter fun y => decide (y ≠ x))
termination_by l => l.length
decreasing_by
  simp only [List.length_cons]
  exact Nat.lt_succ_of_le (List.length_filter_le _ _)

/-- The sort key of `Counter.most_common`: descending by count
(`sorted(..., key=itemgetter(1), reverse=True)`). -/
def cntGe (a b : String × Nat) : Prop := b.2 ≤ a.2

instance : DecidableRel cntGe := fun a b => Nat.decLe b.2 a.2

instance : IsTotal (String × Nat) cntGe := ⟨fun a b => Nat.le_total b.2 a.2⟩

instance : IsTrans (String × Nat) cntGe :=
  ⟨fun _ _ _ h1 h2 => Nat.le_trans h2 h1⟩

/-- `Counter(types).most_common(n)`: a stable descending-by-count sort of the
counter items, truncated to `n`.  CPython's sort is stable, so any stable
sort for the same key order is an exact model; `List.insertionSort` is one. -/
def mostCommon (types : List String) (n : Nat) : List (String × Nat) :=
  (List.insertionSort cntGe (counter types)).take n

/-- Round half to even (Python's `round` tie-breaking) to an integer. -/
def rhe (q : ℚ) : Int :=
  let f := ⌊q⌋
  let r := q - f
  if r < 1/2 then f
  else if 1/2 < r then f + 1
  else if f % 2 = 0 then f else f + 1

/-- Python `round(q, 2)` on the exact-rational model of a float. -/
def round2 (q : ℚ) : ℚ := (rhe (q * 100) : ℚ) / 100

/-- The dict returned by `calculate_metrics`. -/
structure Metrics where
  total_records : Int
  valid_records : Int
  invalid_records : Int
  data_integrity_score : ℚ
  total_errors : Nat
  top_5_issues : List (String × Nat)

/-- `calculate_metrics(validation_errors, total_records)`.
`len(set(...))` is the number of distinct skus, modelled by `List.dedup`. -/
def calculate_metrics (validation_errors : List ErrorRecord) (total_records : Int) : Metrics :=
  let invalid_records : Int := ((validation_errors.map ErrorRecord.sku).dedup).length
  let valid_records : Int := total_records - invalid_records
  let data_integrity_score : ℚ :=
    if 0 < total_records then (valid_records : ℚ) / (total_records : ℚ) * 100 else 0
  let top_5_issues := mostCommon (validation_errors.map ErrorRecord.issue_type) 5
  { total_records := total_records
    valid_records := valid_records
    invalid_records := invalid_records
    data_integrity_score := round2 data_integrity_score
    total_errors := validation_errors.length
    top_5_issues := top_5_issues }

/-! ### reporting/metrics.py — generate_executive_summary -/

/-- Insert thousands separators into a reversed digit string. -/
def commaRev : List Char → List Char
  | a :: b :: c :: d :: rest => a :: b :: c :: ',' :: commaRev (d :: rest)
  | l => l

/-- Python `f"{n:,}"` for an integer. -/
def fmtComma (n : Int) : String :=
  let digits := (toString n.natAbs).data
  let grouped := (commaRev digits.reverse).reverse
  if n < 0 then "-" ++ ⟨grouped⟩ else ⟨grouped⟩

/-- Python `f"{q:.1f}"` on the exact-rational model of a float. -/
def fmt1f (q : ℚ) : String :=
  let n := rhe (q * 10)
  let render := fun (m : Nat) => toString (m / 10) ++ "." ++ toString (m % 10)
  if n < 0 then "-" ++ render (-n).toNat else render n.toNat

/-- Python `int(q)`: truncation toward zero. -/
def pyInt (q : ℚ) : Int := q.num / q.den

/-- Python `str.title()` over the characters: uppercase a letter that starts
a run of letters, lowercase the other letters. -/
def titleChars : List Char → Bool → List Char
  | [], _ => []
  | c :: cs, prevAlpha =>
      (if c.isAlpha then (if prevAlpha then c.toLower else c.toUpper) else c)
        :: titleChars cs c.isAlpha

/-- `issue_type.replace('_', ' ').title()`. -/
def readableIssue (s : String) : String :=
  ⟨titleChars (s.data.map fun c => if c = '_' then ' ' else c) false⟩

/-- The `health_status` / `health_verb` pair selected from the score. -/
def healthOf (score : ℚ) : String × String :=
  if 90 ≤ score then ("excellent", "demonstrates")
  else if 75 ≤ score then ("good", "shows")
  else if 50 ≤ score then ("fair", "indicates")
  else ("poor", "reveals")

/-- One entry of `issue_names`: `f"{readable_issue} ({int(pct)}%)"`. -/
def issueName (errors : Nat) (p : String × Nat) : String :=
  let pct : ℚ := if 0 < errors then (p.2 : ℚ) / (errors : ℚ) * 100 else 0
  readableIssue p.1 ++ " (" ++ toString (pyInt pct) ++ "%)"

/-- The `top_issues_text` fragment built from the top three issue types. -/
def topIssuesText (top_issues : List (String × Nat)) (errors : Nat) : String :=
  match (top_issues.take 3).map (issueName errors) with
  | [] => "no validation errors were identified"
  | [n0] => "driven by " ++ n0
  | [n0, n1] => "primarily driven by " ++ n0 ++ " and " ++ n1
  | n0 :: rest =>
      "primarily driven by " ++ String.intercalate ", " (n0 :: rest.dropLast)
        ++ ", and " ++ rest.getLastD n0

/-- The `invalid == 0` paragraph.  Literal text is split so that the
spec-relevant phrase is its own `++` operand; the assembled string is
unchanged. -/
def summaryPerfect (m : Metrics) : String :=
  "Analysis of " ++ fmtComma m.total_records ++ " catalog records identified "
    ++ "no data integrity issues"
    ++ ". All products passed validation with a perfect "
    ++ fmt1f m.data_integrity_score
    ++ "% integrity score. The catalog is production-ready without requiring remediation."

/-- The `invalid_pct < 5` paragraph. -/
def summaryStrong (m : Metrics) (invalid_pct : ℚ) : String :=
  "Analysis of " ++ fmtComma m.total_records ++ " catalog records identified "
    ++ fmt1f invalid_pct ++ "% data integrity issues ("
    ++ fmtComma m.invalid_records ++ " records), "
    ++ topIssuesText m.top_5_issues m.total_errors
    ++ ". With a " ++ (healthOf m.data_integrity_score).1 ++ " integrity score of "
    ++ fmt1f m.data_integrity_score ++ "%, the catalog "
    ++ (healthOf m.data_integrity_score).2
    ++ " strong data quality suitable for production use with minimal remediation required."

/-- The `invalid_pct < 15` paragraph. -/
def summaryModerate (m : Metrics) (invalid_pct : ℚ) : String :=
  "Analysis of " ++ fmtComma m.total_records ++ " catalog records identified "
    ++ fmt1f invalid_pct ++ "% data integrity issues ("
    ++ fmtComma m.invalid_records ++ " records), "
    ++ topIssuesText m.top_5_issues m.total_errors
    ++ ". The " ++ (healthOf m.data_integrity_score).1 ++ " integrity score of "
    ++ fmt1f m.data_integrity_score ++ "% "
    ++ (healthOf m.data_integrity_score).2 ++ " "
    ++ "moderate data quality concerns"
    ++ ". Recommended immediate action includes deduplication efforts and category"
    ++ " standardization to improve catalog quality."

/-- The final (else) paragraph. -/
def summaryUrgent (m : Metrics) (invalid_pct : ℚ) : String :=
  "Analysis of " ++ fmtComma m.total_records
    ++ " catalog records identified significant data integrity issues affecting "
    ++ fmt1f invalid_pct ++ "% of records ("
    ++ fmtComma m.invalid_records ++ " records), "
    ++ topIssuesText m.top_5_issues m.total_errors
    ++ ". With a " ++ (healthOf m.data_integrity_score).1 ++ " integrity score of "
    ++ fmt1f m.data_integrity_score
    ++ "%, urgent remediation is required. Priority actions include resolving duplicate"
    ++ " SKUs, standardizing missing fields, and implementing upstream validation to"
    ++ " prevent future data quality degradation."

/-- `generate_executive_summary(metrics)`. -/
def generate_executive_summary (m : Metrics) : String :=
  let invalid_pct : ℚ :=
    if 0 < m.total_records then (m.invalid_records : ℚ) / (m.total_records : ℚ) * 100 else 0
  if m.invalid_records = 0 then summaryPerfect m
  else if invalid_pct < 5 then summaryStrong m invalid_pct
  else if invalid_pct < 15 then summaryModerate m invalid_pct
  else summaryUrgent m invalid_pct

/-- `p` occurs as a contiguous substring of `s`. -/
def strContains (p s : String) : Prop := ∃ a b, s = a ++ p ++ b

/-! ### Concrete inputs used by witness theorems -/

def c1errs : List ErrorRecord :=
  [⟨"SKU-00001", "price_too_low", "d"⟩, ⟨"SKU-00001", "duplicate_sku", "d"⟩]

def c2rec : Record := ⟨"SKU-00009", "abc", none, "1", some 1⟩

def c4rec : Record := ⟨"SKU-00008", "1", some (.num 1), "abc", none⟩

def c9rec : Record := ⟨"SKU-00007", "None", none, "None", none⟩

def c10rec : Record := ⟨"SKU-00006", "nan", some PVal.nan, "10", some 10⟩

/-- The sku values, in scan order, at whose first occurrence `SKUValidator.go`
emits a `duplicate_sku` error, given the full-column frequencies `counts` and
the already-reported set `seen` (proof helper mirroring the loop's
seen-set discipline). -/
def dupTargets (counts : List String) : List String → List String → List String
  | [], _ => []
  | s :: ss, seen =>
      if decide (1 < counts.count s) && !(seen.contains s) then
        s :: dupTargets counts ss (s :: seen)
      else
        dupTargets counts ss seen

/-- The default pattern with its trailing `$` anchor removed (`^SKU-\d{5}`):
a configured pattern without a trailing anchor. -/
def pat6 : Pat := ⟨"^SKU-\\d{5}", SKU_PATTERN.toks, false⟩

/-- A record whose sku has the shape `SKU-` + six digits: a strict superstring
of a `pat6` match. -/
def rec6 : Record := ⟨"SKU-000011", "1", some (.num 1), "10", some 10⟩

/-- A well-formed row used twice to exercise duplicate detection. -/
def c3rec : Record := ⟨"SKU-00001", "1", some (.num 1), "10", some 10⟩

/-- A perfect-score metrics dict used by the summary witness. -/
def demoM : Metrics := ⟨100, 100, 0, 100, 0, []⟩

/-! ### Shared lemmas -/

theorem strContains_self (p : String) : strContains p p :=
  ⟨"", "", by rw [String.empty_append, String.append_empty]⟩

theorem strContains_appR (p s t : String) (h : strContains p s) : strContains p (s ++ t) := by
  rcases h with ⟨a, b, rfl⟩
  exact ⟨a, b ++ t, by rw [String.append_assoc (a ++ p) b t]⟩

theorem strContains_appL (p s t : String) (h : strContains p t) : strContains p (s ++ t) := by
  rcases h with ⟨a, b, rfl⟩
  exact ⟨s ++ a, b, by rw [← String.append_assoc, ← String.append_assoc]⟩

theorem round2_zero : round2 0 = 0 := by norm_num [round2, rhe]

theorem rhe_nonneg (q : ℚ) (h : 0 ≤ q) : 0 ≤ rhe q := by
  have hf : (0 : ℤ) ≤ ⌊q⌋ := Int.floor_nonneg.mpr h
  simp only [rhe]
  split
  · exact hf
  · split
    · omega
    · split <;> omega

theorem rhe_le_of_le (q : ℚ) (B : ℤ) (h : q ≤ (B : ℚ)) : rhe q ≤ B := by
  have hf : ⌊q⌋ ≤ B := by
    have := Int.floor_le_floor h
    simpa using this
  have hlt : ∀ r : ℚ, r = q - ⌊q⌋ → ¬ r < 1/2 → ⌊q⌋ < B := by
    intro r hr hge
    rcases lt_or_eq_of_le hf with hlt | heq
    · exact hlt
    · exfalso
      apply hge
      have : q - (⌊q⌋ : ℚ) ≤ 0 := by
        rw [heq]
        linarith
      rw [hr]
      linarith
  simp only [rhe]
  split
  · exact hf
  · split
    · have := hlt _ rfl (by assumption)
      omega
    · split
      · exact hf
      · have := hlt _ rfl (by assumption)
        omega

theorem checkRecord_price_length (v : PriceValidator) (r : Record) :
    (v.checkRecord r).length ≤ 1 := by
  simp only [PriceValidator.checkRecord]
  split
  · simp
  · split
    · simp
    · split <;> simp

theorem checkRecord_inventory_length (w : InventoryValidator) (r : Record) :
    (w.checkRecord r).length ≤ 1 := by
  simp only [InventoryValidator.checkRecord]
  split
  · simp
  · split
    · simp
    · split <;> simp

theorem price_validate_length (v : PriceValidator) (df : List Record) :
    (v.validate df).length ≤ df.length := by
  induction df with
  | nil => simp [PriceValidator.validate]
  | cons r rest ih =>
    simp only [PriceValidator.validate, List.flatMap_cons, List.length_append,
      List.length_cons] at ih ⊢
    have := checkRecord_price_length v r
    omega

theorem inventory_validate_length (w : InventoryValidator) (df : List Record) :
    (w.validate df).length ≤ df.length := by
  induction df with
  | nil => simp [InventoryValidator.validate]
  | cons r rest ih =>
    simp only [InventoryValidator.validate, List.flatMap_cons, List.length_append,
      List.length_cons] at ih ⊢
    have := checkRecord_inventory_length w r
    omega

theorem sku_go_length (v : SKUValidator) (counts : List String) (rs : List Record)
    (reported : List String) : (v.go counts rs reported).length ≤ 2 * rs.length := by
  induction rs generalizing reported with
  | nil => simp [SKUValidator.go]
  | cons r rest ih =>
    rw [SKUValidator.go]
    split
    · have h1 := ih (r.sku :: reported)
      by_cases hm : reMatch v.sku_pattern r.sku <;>
        simp [hm, List.length_append] <;> omega
    · have h1 := ih reported
      by_cases hm : reMatch v.sku_pattern r.sku <;>
        simp [hm, List.length_append] <;> omega

theorem sku_validate_length (v : SKUValidator) (df : List Record) :
    (v.validate df).length ≤ 2 * df.length := by
  have := sku_go_length v (df.map Record.sku) df []
  simpa [SKUValidator.validate, List.length_map] using this

/-! ### Claim theorems: metrics fields (C1) -/

/-- C1: `calculate_metrics` sets `invalid_records` to the number of distinct
skus in the error list, `valid_records` to `total_records - invalid_records`,
`total_errors` to the length of the error list, and `data_integrity_score` to
`round(valid_records / total_records * 100, 2)` when `total_records > 0` and
to `0` when `total_records <= 0` (no division by zero at
`total_records = 0`). -/
theorem claim_C1 (errors : List ErrorRecord) (total : Int) :
    (calculate_metrics errors total).invalid_records
        = ((errors.map ErrorRecord.sku).toFinset.card : Int)
  ∧ (calculate_metrics errors total).valid_records
        = total - ((errors.map ErrorRecord.sku).toFinset.card : Int)
  ∧ (calculate_metrics errors total).total_errors = errors.length
  ∧ (0 < total →
      (calculate_metrics errors total).data_integrity_score
        = round2 (((total - ((errors.map ErrorRecord.sku).toFinset.card : Int) : Int) : ℚ)
            / (total : ℚ) * 100))
  ∧ (total ≤ 0 → (calculate_metrics errors total).data_integrity_score = 0) := by
  refine ⟨?_, ?_, ?_, ?_, ?_⟩
  · simp [calculate_metrics, List.card_toFinset]
  · simp [calculate_metrics, List.card_toFinset]
  · simp [calculate_metrics]
  · intro h
    simp [calculate_metrics, List.card_toFinset, if_pos h]
  · intro h
    rw [calculate_metrics]
    simp only [if_neg (by omega : ¬ 0 < total)]
    exact round2_zero


theorem claim_C1_witness :
    (calculate_metrics c1errs 2).data_integrity_score
        = round2 ((((2 : Int) - ((c1errs.map ErrorRecord.sku).toFinset.card : Int) : Int) : ℚ)
            / ((2 : Int) : ℚ) * 100)
  ∧ (calculate_metrics c1errs 0).data_integrity_score = 0 :=
  ⟨(claim_C1 c1errs 2).2.2.2.1 (by decide), (claim_C1 c1errs 0).2.2.2.2 (by decide)⟩

/-! ### Claim theorems: PriceValidator (C2) -/

/-- C2: per record, `PriceValidator.validate` emits exactly one
`invalid_price_format` error (description containing the raw value) on a parse
failure, skipping the range checks; otherwise exactly one `price_too_low` when
the value `<= min_price`, else exactly one `price_too_high` when the value
`>= max_price`, else nothing.  Both boundaries are exclusive: price 0 with
min_price 0.01 gives `price_too_low`, price 9999.99 with max_price 9999.99
gives `price_too_high`. -/
theorem claim_C2 (v : PriceValidator) (r : Record) (rest : List Record) :
    (v.validate (r :: rest) = v.checkRecord r ++ v.validate rest)
  ∧ (r.priceParse = none →
      v.checkRecord r
          = [⟨r.sku, "invalid_price_format",
              "Price '" ++ r.priceRaw ++ "' is not a valid number"⟩]
        ∧ strContains r.priceRaw ("Price '" ++ r.priceRaw ++ "' is not a valid number"))
  ∧ (∀ pv, r.priceParse = some pv →
      (pv.le v.min_price = true →
        v.checkRecord r = [⟨r.sku, "price_too_low",
          "Price " ++ pvalRepr pv ++ " must be > " ++ ratRepr v.min_price⟩])
      ∧ (pv.le v.min_price = false → pv.ge v.max_price = true →
        v.checkRecord r = [⟨r.sku, "price_too_high",
          "Price " ++ pvalRepr pv ++ " must be < " ++ ratRepr v.max_price⟩])
      ∧ (pv.le v.min_price = false → pv.ge v.max_price = false →
        v.checkRecord r = []))
  ∧ (PVal.num 0).le MIN_PRICE = true
  ∧ (PVal.num MAX_PRICE).ge MAX_PRICE = true
  ∧ ((PriceValidator.mk MIN_PRICE MAX_PRICE).validate
        [⟨"SKU-00001", "0", some (.num 0), "10", some 10⟩]).map ErrorRecord.issue_type
      = ["price_too_low"]
  ∧ ((PriceValidator.mk MIN_PRICE MAX_PRICE).validate
        [⟨"SKU-00002", "9999.99", some (.num MAX_PRICE), "10", some 10⟩]).map
          ErrorRecord.issue_type
      = ["price_too_high"] := by
  have hlow : (PVal.num 0).le MIN_PRICE = true := by
    simp only [PVal.le, MIN_PRICE, decide_eq_true_eq]
    norm_num
  have hhigh : (PVal.num MAX_PRICE).ge MAX_PRICE = true := by
    simp [PVal.ge]
  refine ⟨by simp [PriceValidator.validate], ?_, ?_, hlow, hhigh, ?_, ?_⟩
  · intro h
    refine ⟨by simp [PriceValidator.checkRecord, h], ?_⟩
    exact ⟨"Price '", "' is not a valid number", rfl⟩
  · intro pv h
    refine ⟨?_, ?_, ?_⟩
    · intro hle
      simp [PriceValidator.checkRecord, h, hle]
    · intro hle hge
      simp [PriceValidator.checkRecord, h, hle, hge]
    · intro hle hge
      simp [PriceValidator.checkRecord, h, hle, hge]
  · simp [PriceValidator.validate, PriceValidator.checkRecord, hlow]
  · have hnotlow : (PVal.num MAX_PRICE).le MIN_PRICE = false := by
      simp [PVal.le, MIN_PRICE, MAX_PRICE]
      norm_num
    simp [PriceValidator.validate, PriceValidator.checkRecord, hnotlow, hhigh]


theorem claim_C2_witness :
    (PriceValidator.mk MIN_PRICE MAX_PRICE).checkRecord c2rec
      = [⟨"SKU-00009", "invalid_price_format", "Price 'abc' is not a valid number"⟩] := by
  have h := ((claim_C2 (PriceValidator.mk MIN_PRICE MAX_PRICE) c2rec []).2.1 rfl).1
  simpa [c2rec] using h

/-! ### Claim theorems: InventoryValidator (C4) -/

/-- C4: per record, `InventoryValidator.validate` emits exactly one
`invalid_inventory_format` error on a parse failure, skipping the remaining
checks; otherwise exactly one `negative_inventory` when the value
`< min_inventory`, else exactly one `low_stock_warning` when the value
`< low_stock_threshold`, else nothing; the branches are mutually exclusive
per record (at most one inventory error per record). -/
theorem claim_C4 (w : InventoryValidator) (r : Record) (rest : List Record) :
    (w.validate (r :: rest) = w.checkRecord r ++ w.validate rest)
  ∧ (r.invParse = none →
      w.checkRecord r
        = [⟨r.sku, "invalid_inventory_format",
            "Inventory '" ++ r.invRaw ++ "' is not a valid integer"⟩])
  ∧ (∀ iv, r.invParse = some iv →
      (iv < w.min_inventory →
        w.checkRecord r = [⟨r.sku, "negative_inventory",
          "Inventory " ++ toString iv ++ " cannot be negative"⟩])
      ∧ (w.min_inventory ≤ iv → iv < w.low_stock_threshold →
        w.checkRecord r = [⟨r.sku, "low_stock_warning",
          "Inventory " ++ toString iv ++ " is below threshold of "
            ++ toString w.low_stock_threshold⟩])
      ∧ (w.min_inventory ≤ iv → w.low_stock_threshold ≤ iv →
        w.checkRecord r = []))
  ∧ (w.checkRecord r).length ≤ 1 := by
  refine ⟨by simp [InventoryValidator.validate], ?_, ?_,
    checkRecord_inventory_length w r⟩
  · intro h
    simp [InventoryValidator.checkRecord, h]
  · intro iv h
    refine ⟨?_, ?_, ?_⟩
    · intro hneg
      simp [InventoryValidator.checkRecord, h, hneg]
    · intro hmin hlow
      simp [InventoryValidator.checkRecord, h, hlow, not_lt.mpr hmin]
    · intro hmin hthr
      simp [InventoryValidator.checkRecord, h, not_lt.mpr hmin, not_lt.mpr hthr]


theorem claim_C4_witness :
    (InventoryValidator.mk MIN_INVENTORY LOW_STOCK_THRESHOLD).checkRecord c4rec
      = [⟨"SKU-00008", "invalid_inventory_format",
          "Inventory 'abc' is not a valid integer"⟩] := by
  have h := (claim_C4 (InventoryValidator.mk MIN_INVENTORY LOW_STOCK_THRESHOLD)
    c4rec []).2.1 rfl
  simpa [c4rec] using h

/-! ### Claim theorems: no exception escapes a validator (C9) -/

/-- C9: on arbitrarily malformed field values, every validator returns
normally with a list of error records: a parse failure becomes the matching
`*_format` error record and processing continues with the next record, and the
output length is bounded (one error per record for Price/Inventory, two per
record for SKU), so the embedding is total on all inputs. -/
theorem claim_C9 (v : PriceValidator) (w : InventoryValidator) (u : SKUValidator)
    (r : Record) (rest : List Record) (df : List Record) :
    (r.priceParse = none →
      v.validate (r :: rest)
        = ⟨r.sku, "invalid_price_format",
            "Price '" ++ r.priceRaw ++ "' is not a valid number"⟩ :: v.validate rest)
  ∧ (r.invParse = none →
      w.validate (r :: rest)
        = ⟨r.sku, "invalid_inventory_format",
            "Inventory '" ++ r.invRaw ++ "' is not a valid integer"⟩ :: w.validate rest)
  ∧ (v.validate df).length ≤ df.length
  ∧ (w.validate df).length ≤ df.length
  ∧ (u.validate df).length ≤ 2 * df.length := by
  refine ⟨?_, ?_, price_validate_length v df, inventory_validate_length w df,
    sku_validate_length u df⟩
  · intro h
    simp [PriceValidator.validate, PriceValidator.checkRecord, h]
  · intro h
    simp [InventoryValidator.validate, InventoryValidator.checkRecord, h]


theorem claim_C9_witness :
    (PriceValidator.mk MIN_PRICE MAX_PRICE).validate [c9rec]
      = [⟨"SKU-00007", "invalid_price_format", "Price 'None' is not a valid number"⟩]
  ∧ (InventoryValidator.mk MIN_INVENTORY LOW_STOCK_THRESHOLD).validate [c9rec]
      = [⟨"SKU-00007", "invalid_inventory_format",
          "Inventory 'None' is not a valid integer"⟩] := by
  have h := claim_C9 (PriceValidator.mk MIN_PRICE MAX_PRICE)
    (InventoryValidator.mk MIN_INVENTORY LOW_STOCK_THRESHOLD)
    (SKUValidator.mk SKU_PATTERN) c9rec [] []
  exact ⟨by simpa [c9rec] using h.1 rfl, by simpa [c9rec] using h.2.1 rfl⟩

/-! ### Claim theorems: NaN price passes silently (C10) -/

/-- C10: a price that parses to NaN produces no error at all: the parse
succeeds and both IEEE comparisons against the thresholds are false, so the
record contributes nothing to the output. -/
theorem claim_C10 (v : PriceValidator) (r : Record) (rest : List Record)
    (h : r.priceParse = some PVal.nan) :
    PVal.nan.le v.min_price = false
  ∧ PVal.nan.ge v.max_price = false
  ∧ v.checkRecord r = []
  ∧ v.validate (r :: rest) = v.validate rest := by
  refine ⟨rfl, rfl, ?_, ?_⟩
  · simp [PriceValidator.checkRecord, h, PVal.le, PVal.ge]
  · simp [PriceValidator.validate, PriceValidator.checkRecord, h, PVal.le, PVal.ge]


theorem claim_C10_witness :
    (PriceValidator.mk MIN_PRICE MAX_PRICE).validate [c10rec, c2rec]
      = (PriceValidator.mk MIN_PRICE MAX_PRICE).validate [c2rec] :=
  (claim_C10 (PriceValidator.mk MIN_PRICE MAX_PRICE) c10rec [c2rec] rfl).2.2.2

/-! ### Lemmas about first-seen deduplication and the sku loop -/

theorem mem_dedupFirst (l : List String) (a : String) : a ∈ dedupFirst l ↔ a ∈ l := by
  induction l using dedupFirst.induct with
  | case1 => simp [dedupFirst]
  | case2 x xs ih =>
    rw [dedupFirst]
    simp only [List.mem_cons, ih, List.mem_filter]
    constructor
    · rintro (rfl | ⟨h, _⟩)
      · exact Or.inl rfl
      · exact Or.inr h
    · rintro (rfl | h)
      · exact Or.inl rfl
      · by_cases hx : a = x
        · exact Or.inl hx
        · exact Or.inr ⟨h, by simpa using hx⟩

theorem nodup_dedupFirst (l : List String) : (dedupFirst l).Nodup := by
  induction l using dedupFirst.induct with
  | case1 => simp [dedupFirst]
  | case2 x xs ih =>
    rw [dedupFirst]
    refine List.nodup_cons.mpr ⟨?_, ih⟩
    intro hx
    have := (mem_dedupFirst _ x).mp hx
    simp at this

theorem dedupFirst_filter (p : String → Bool) (l : List String) :
    dedupFirst (l.filter p) = (dedupFirst l).filter p := by
  induction l using dedupFirst.induct with
  | case1 => simp [dedupFirst]
  | case2 x xs ih =>
    by_cases hp : p x
    · rw [dedupFirst]
      simp only [List.filter_cons, hp, if_true]
      rw [dedupFirst]
      have hcomm : (xs.filter p).filter (fun y => decide (y ≠ x))
          = (xs.filter fun y => decide (y ≠ x)).filter p := by
        rw [List.filter_filter, List.filter_filter]
        exact List.filter_congr fun a _ => Bool.and_comm _ _
      rw [hcomm, ih]
    · rw [dedupFirst]
      simp only [List.filter_cons, hp, if_false, Bool.false_eq_true]
      have hid : (xs.filter p).filter (fun y => decide (y ≠ x)) = xs.filter p := by
        rw [List.filter_eq_self]
        intro a ha
        have hpa := (List.mem_filter.mp ha).2
        simp only [decide_eq_true_eq]
        intro hax
        rw [hax] at hpa
        exact hp hpa
      calc dedupFirst (xs.filter p)
      _ = dedupFirst ((xs.filter p).filter fun y => decide (y ≠ x)) := by rw [hid]
      _ = dedupFirst ((xs.filter fun y => decide (y ≠ x)).filter p) := by
            rw [List.filter_filter, List.filter_filter]
            exact congrArg _ (List.filter_congr fun a _ => Bool.and_comm _ _)
      _ = (dedupFirst (xs.filter fun y => decide (y ≠ x))).filter p := ih

theorem counter_eq (l : List String) :
    counter l = (dedupFirst l).map fun t => (t, l.count t) := by
  induction l using counter.induct with
  | case1 => simp [counter, dedupFirst]
  | case2 x xs ih =>
    rw [counter, dedupFirst, ih]
    simp only [List.map_cons, List.count_cons_self]
    refine congrArg _ (List.map_congr_left ?_)
    intro t ht
    have htf : t ∈ xs.filter fun y => decide (y ≠ x) := (mem_dedupFirst _ t).mp ht
    have htx : t ≠ x := by
      have := (List.mem_filter.mp htf).2
      simpa using this
    rw [List.count_cons_of_ne htx, List.count_filter (by simpa using htx)]

theorem contains_eq (l : List String) (a : String) : l.contains a = decide (a ∈ l) := by
  induction l with
  | nil => simp
  | cons x xs ih =>
    rw [List.contains_cons, ih]
    by_cases h : a = x
    · simp [h]
    · simp [h, List.mem_cons]

theorem go_filter_dup (v : SKUValidator) (counts : List String) (rs : List Record) :
    ∀ reported : List String,
    ((v.go counts rs reported).filter fun e => e.issue_type == "duplicate_sku")
      = (dupTargets counts (rs.map Record.sku) reported).map
          (fun s => dupError s (counts.count s)) := by
  induction rs with
  | nil =>
    intro reported
    simp [SKUValidator.go, dupTargets]
  | cons r rest ih =>
    intro reported
    rw [SKUValidator.go]
    simp only [List.map_cons]
    rw [dupTargets]
    by_cases hm : reMatch v.sku_pattern r.sku <;>
      cases hc : decide (1 < counts.count r.sku) && !(reported.contains r.sku) <;>
        simp [hm, hc, List.filter_append, ih, skuFormatError, dupError]

theorem go_filter_fmt (v : SKUValidator) (counts : List String) (rs : List Record) :
    ∀ reported : List String,
    ((v.go counts rs reported).filter fun e => e.issue_type == "invalid_sku_format")
      = (rs.filter fun r => !reMatch v.sku_pattern r.sku).map
          (fun r => skuFormatError v.sku_pattern r.sku) := by
  induction rs with
  | nil =>
    intro reported
    simp [SKUValidator.go]
  | cons r rest ih =>
    intro reported
    rw [SKUValidator.go]
    by_cases hm : reMatch v.sku_pattern r.sku <;>
      cases hc : decide (1 < counts.count r.sku) && !(reported.contains r.sku) <;>
        simp [hm, hc, List.filter_append, List.filter_cons, ih, skuFormatError, dupError]

theorem dupTargets_eq (counts : List String) (l : List String) :
    ∀ seen : List String,
    dupTargets counts l seen
      = (dedupFirst l).filter fun s =>
          decide (1 < counts.count s) && !(seen.contains s) := by
  induction l with
  | nil =>
    intro seen
    simp [dupTargets, dedupFirst]
  | cons x xs ih =>
    intro seen
    rw [dupTargets, dedupFirst, dedupFirst_filter]
    cases hc : decide (1 < counts.count x) && !(seen.contains x)
    · rw [ih seen]
      simp only [List.filter_cons, hc, if_false, Bool.false_eq_true]
      rw [List.filter_filter]
      refine List.filter_congr ?_
      intro y hy
      by_cases h3 : y = x
      · subst h3
        simp only [ne_eq, not_true_eq_false, decide_False, Bool.and_false]
        have h := hc
        rw [contains_eq] at h ⊢
        by_cases h1 : 1 < counts.count y <;> by_cases h2 : y ∈ seen <;>
          simp [h1, h2] at h ⊢
      · simp [h3]
    · rw [ih (x :: seen)]
      simp only [List.filter_cons, hc, if_true]
      rw [List.filter_filter]
      refine congrArg _ (List.filter_congr ?_)
      intro y hy
      rw [contains_eq, contains_eq]
      by_cases h1 : 1 < counts.count y <;> by_cases h2 : y ∈ seen <;>
        by_cases h3 : y = x <;> simp [h1, h2, h3, List.mem_cons]

theorem length_filter_beq (L : List String) (h : L.Nodup) (s : String) :
    (L.filter fun t => t == s).length = if s ∈ L then 1 else 0 := by
  induction L with
  | nil => simp
  | cons a as ih =>
    have hna := (List.nodup_cons.mp h).1
    have has := (List.nodup_cons.mp h).2
    by_cases hax : a = s
    · subst hax
      have hnil : as.filter (fun t => t == a) = [] := by
        refine List.filter_eq_nil_iff.mpr ?_
        intro t ht hta
        exact hna (by rwa [eq_of_beq hta] at ht)
      simp [List.filter_cons, hnil]
    · have hbeq : (a == s) = false := by
        simpa using hax
      rw [List.filter_cons]
      simp only [hbeq, Bool.false_eq_true, if_false]
      rw [ih has]
      have hmm : (s ∈ a :: as) ↔ s ∈ as := by
        constructor
        · intro hm
          rcases List.mem_cons.mp hm with h1 | h1
          · exact absurd h1.symm hax
          · exact h1
        · exact fun hm => List.mem_cons.mpr (Or.inr hm)
      simp [hmm]

/-! ### Claim theorems: duplicate sku reporting (C3) -/

/-- C3: `SKUValidator.validate` emits exactly one `duplicate_sku` error per
sku value occurring more than once in the column, at that value's first
occurrence in scan order (the `duplicate_sku` sublist equals the first-seen
distinct skus of frequency > 1, in order); two rows sharing sku `SKU-00001`
produce exactly one `duplicate_sku` error. -/
theorem claim_C3 (v : SKUValidator) (df : List Record) :
    ((v.validate df).filter fun e => e.issue_type == "duplicate_sku")
      = ((dedupFirst (df.map Record.sku)).filter fun s =>
            decide (1 < (df.map Record.sku).count s)).map
          (fun s => dupError s ((df.map Record.sku).count s))
  ∧ (∀ s : String,
      ((v.validate df).filter fun e =>
          e.issue_type == "duplicate_sku" && e.sku == s).length
        = if 1 < (df.map Record.sku).count s then 1 else 0)
  ∧ ((SKUValidator.mk SKU_PATTERN).validate [c3rec, c3rec]).filter
        (fun e => e.issue_type == "duplicate_sku")
      = [dupError "SKU-00001" 2] := by
  have h1 : ((v.validate df).filter fun e => e.issue_type == "duplicate_sku")
      = ((dedupFirst (df.map Record.sku)).filter fun s =>
            decide (1 < (df.map Record.sku).count s)).map
          (fun s => dupError s ((df.map Record.sku).count s)) := by
    rw [SKUValidator.validate, go_filter_dup, dupTargets_eq]
    refine congrArg _ (List.filter_congr ?_)
    intro s hs
    simp
  refine ⟨h1, ?_, by decide⟩
  intro s
  have hcomb : ((v.validate df).filter fun e =>
        e.issue_type == "duplicate_sku" && e.sku == s)
      = ((v.validate df).filter fun e => e.issue_type == "duplicate_sku").filter
          fun e => e.sku == s := by
    rw [List.filter_filter]
    exact List.filter_congr fun e _ => Bool.and_comm _ _
  rw [hcomb, h1, List.filter_map]
  have hpf : ((fun e : ErrorRecord => e.sku == s) ∘
        fun t => dupError t ((df.map Record.sku).count t)) = fun t => t == s := by
    funext t
    simp [dupError, Function.comp]
  rw [hpf, List.length_map]
  rw [length_filter_beq _ ((nodup_dedupFirst _).filter _) s]
  by_cases hcnt : 1 < (df.map Record.sku).count s
  · have hmem : s ∈ (dedupFirst (df.map Record.sku)).filter
        fun t => decide (1 < (df.map Record.sku).count t) := by
      refine List.mem_filter.mpr ⟨?_, by simpa using hcnt⟩
      refine (mem_dedupFirst _ s).mpr ?_
      have : 0 < (df.map Record.sku).count s := by omega
      exact List.count_pos_iff.mp this
    simp [hmem, hcnt]
  · have hmem : s ∉ (dedupFirst (df.map Record.sku)).filter
        fun t => decide (1 < (df.map Record.sku).count t) := by
      intro hin
      exact hcnt (by simpa using (List.mem_filter.mp hin).2)
    simp [hmem, hcnt]

/-! ### Claim theorems: sku format matching (C6) -/

/-- C6 counterexample: the code uses `re.match`, which anchors at the start
only.  For the configured pattern `^SKU-\d{5}` (no trailing anchor) and the
sku `SKU-000011`, the sku does *not* fully match the pattern, yet
`SKUValidator.validate` emits no `invalid_sku_format` error — refuting the
claim that an error is emitted exactly when the sku does not fully match, for
any configured pattern including ones without a trailing anchor. -/
theorem claim_C6_counterexample :
    fullMatch pat6 rec6.sku = false
  ∧ ((SKUValidator.mk pat6).validate [rec6]).filter
      (fun e => e.issue_type == "invalid_sku_format") = [] := by
  constructor
  · decide
  · decide

/-- C6 amended: `SKUValidator.validate` emits `invalid_sku_format` for a
record exactly when `re.match` fails on the sku, i.e. when the pattern does
not match a *prefix* of the sku (`re.match` anchors at the start only); for
patterns with a trailing `$` anchor — such as the default `^SKU-\d{5}$` —
`re.match` succeeds exactly when the pattern consumes the entire sku or all
of it except a single trailing newline (Python `$` also matches immediately
before a trailing newline), as witnessed concretely by `SKU-00001\n`. -/
theorem claim_C6_amended (v : SKUValidator) (df : List Record) :
    ((v.validate df).filter fun e => e.issue_type == "invalid_sku_format")
      = (df.filter fun r => !reMatch v.sku_pattern r.sku).map
          (fun r => skuFormatError v.sku_pattern r.sku)
  ∧ (∀ (p : Pat) (s : String), p.endAnchor = true →
      (reMatch p s = true ↔
        (fullMatch p s = true ∨ matchToks p.toks s.data = some ['\n'])))
  ∧ reMatch SKU_PATTERN "SKU-00001\n" = true
  ∧ fullMatch SKU_PATTERN "SKU-00001\n" = false := by
  refine ⟨?_, ?_, by decide, by decide⟩
  · rw [SKUValidator.validate, go_filter_fmt]
  · intro p s hp
    rw [reMatch, fullMatch]
    cases hm : matchToks p.toks s.data with
    | none => simp
    | some rest =>
      simp only [hp, Bool.not_true, Bool.false_or, Bool.or_eq_true,
        List.isEmpty_iff, beq_iff_eq, Option.some.injEq]

theorem claim_C6_witness :
    reMatch SKU_PATTERN "ABC-1" = true ↔
      (fullMatch SKU_PATTERN "ABC-1" = true
        ∨ matchToks SKU_PATTERN.toks "ABC-1".data = some ['\n']) :=
  (claim_C6_amended (SKUValidator.mk SKU_PATTERN) []).2.1 SKU_PATTERN "ABC-1" rfl

/-! ### Claim theorems: score bounds (C7) -/

theorem round2_nonneg (q : ℚ) (h : 0 ≤ q) : 0 ≤ round2 q := by
  have hr := rhe_nonneg (q * 100) (by positivity)
  rw [round2]
  have : (0 : ℚ) ≤ (rhe (q * 100) : ℚ) := by exact_mod_cast hr
  positivity

theorem round2_le (q : ℚ) (B : ℤ) (h : q ≤ (B : ℚ)) : round2 q ≤ (B : ℚ) := by
  have hr : rhe (q * 100) ≤ B * 100 := by
    refine rhe_le_of_le _ _ ?_
    push_cast
    linarith
  rw [round2]
  rw [div_le_iff₀ (by norm_num : (0:ℚ) < 100)]
  calc (rhe (q * 100) : ℚ) ≤ ((B * 100 : ℤ) : ℚ) := by exact_mod_cast hr
  _ = (B : ℚ) * 100 := by push_cast; ring

/-- C7: when the error list only references skus of the record set and
`total_records` is the record count (positive), `invalid_records` cannot
exceed `total_records` and the integrity score lies in `[0, 100]`. -/
theorem claim_C7 (df : List Record) (errors : List ErrorRecord) (total : Int)
    (hsub : ∀ e ∈ errors, e.sku ∈ df.map Record.sku)
    (htot : total = (df.length : Int)) (hpos : 0 < total) :
    (calculate_metrics errors total).invalid_records ≤ total
  ∧ 0 ≤ (calculate_metrics errors total).data_integrity_score
  ∧ (calculate_metrics errors total).data_integrity_score ≤ 100 := by
  have hsubset : (errors.map ErrorRecord.sku).toFinset ⊆ (df.map Record.sku).toFinset := by
    intro a ha
    rw [List.mem_toFinset] at ha ⊢
    rcases List.mem_map.mp ha with ⟨e, he, rfl⟩
    exact hsub e he
  have hinv : ((errors.map ErrorRecord.sku).dedup).length ≤ df.length := by
    have h1 := Finset.card_le_card hsubset
    rw [List.card_toFinset, List.card_toFinset] at h1
    have h2 := (df.map Record.sku).dedup_sublist.length_le
    rw [List.length_map] at h2
    omega
  have hinvI : (((errors.map ErrorRecord.sku).dedup).length : Int) ≤ total := by
    rw [htot]
    exact_mod_cast hinv
  have hfield : (calculate_metrics errors total).invalid_records
      = (((errors.map ErrorRecord.sku).dedup).length : Int) := rfl
  refine ⟨by rw [hfield]; exact hinvI, ?_, ?_⟩
  all_goals
    have hscore : (calculate_metrics errors total).data_integrity_score
        = round2 (((total - (((errors.map ErrorRecord.sku).dedup).length : Int) : Int) : ℚ)
            / (total : ℚ) * 100) := by
      rw [calculate_metrics]
      simp only [if_pos hpos]
    have htQ : (0 : ℚ) < (total : ℚ) := by exact_mod_cast hpos
    have hvalid0 : (0 : ℚ) ≤ ((total - (((errors.map ErrorRecord.sku).dedup).length : Int) : Int) : ℚ) := by
      have : (0 : Int) ≤ total - (((errors.map ErrorRecord.sku).dedup).length : Int) := by omega
      exact_mod_cast this
    have hvalidT : ((total - (((errors.map ErrorRecord.sku).dedup).length : Int) : Int) : ℚ)
        ≤ (total : ℚ) := by
      have : total - (((errors.map ErrorRecord.sku).dedup).length : Int) ≤ total := by
        have : (0 : Int) ≤ (((errors.map ErrorRecord.sku).dedup).length : Int) := by positivity
        omega
      exact_mod_cast this
  · rw [hscore]
    refine round2_nonneg _ ?_
    have := div_nonneg hvalid0 (le_of_lt htQ)
    linarith
  · rw [hscore]
    have h1 : ((total - (((errors.map ErrorRecord.sku).dedup).length : Int) : Int) : ℚ)
        / (total : ℚ) ≤ 1 := by
      rw [div_le_one htQ]
      exact hvalidT
    have h2 : ((total - (((errors.map ErrorRecord.sku).dedup).length : Int) : Int) : ℚ)
        / (total : ℚ) * 100 ≤ 100 := by linarith
    have := round2_le _ 100 (by exact_mod_cast h2)
    exact_mod_cast this

theorem claim_C7_witness :
    (calculate_metrics [] 1).invalid_records ≤ 1
  ∧ 0 ≤ (calculate_metrics [] 1).data_integrity_score
  ∧ (calculate_metrics [] 1).data_integrity_score ≤ 100 :=
  claim_C7 [c3rec] [] 1 (by simp) (by decide) (by decide)

/-! ### Claim theorems: top-5 issue ranking (C5) -/

theorem filter_orderedInsert (x : String × Nat) (l : List (String × Nat)) (c : Nat) :
    (List.orderedInsert cntGe x l).filter (fun p => decide (p.2 = c))
      = if x.2 = c then x :: l.filter (fun p => decide (p.2 = c))
        else l.filter (fun p => decide (p.2 = c)) := by
  induction l with
  | nil =>
    by_cases hx : x.2 = c <;> simp [List.orderedInsert, hx]
  | cons y ys ih =>
    rw [List.orderedInsert]
    by_cases hr : cntGe x y
    · rw [if_pos hr]
      by_cases hx : x.2 = c <;> simp [hx, List.filter_cons]
    · rw [if_neg hr]
      have hxy : x.2 < y.2 := Nat.lt_of_not_le hr
      by_cases hx : x.2 = c
      · have hy : ¬ y.2 = c := by omega
        simp [List.filter_cons, hy, hx, ih]
      · by_cases hy : y.2 = c <;> simp [List.filter_cons, hy, hx, ih]

theorem filter_insertionSort (l : List (String × Nat)) (c : Nat) :
    (List.insertionSort cntGe l).filter (fun p => decide (p.2 = c))
      = l.filter (fun p => decide (p.2 = c)) := by
  induction l with
  | nil => rfl
  | cons x xs ih =>
    rw [List.insertionSort, filter_orderedInsert]
    by_cases hx : x.2 = c <;> simp [hx, ih, List.filter_cons]

theorem indexOf_filter_lt (p : String → Bool) (xs : List String) (a b : String)
    (ha : a ∈ xs.filter p) (hb : b ∈ xs.filter p)
    (h : (xs.filter p).indexOf a < (xs.filter p).indexOf b) :
    xs.indexOf a < xs.indexOf b := by
  induction xs with
  | nil => simp at ha
  | cons y ys ih =>
    rw [List.filter_cons] at ha hb h
    by_cases hy : p y
    · simp only [hy, if_true] at ha hb h
      by_cases hay : a = y
      · subst hay
        have hby : b ≠ a := by
          intro hba
          subst hba
          simp [List.indexOf_cons_self] at h
        rw [List.indexOf_cons_self, List.indexOf_cons_ne ys (fun hya => hby hya.symm)]
        omega
      · by_cases hby : b = y
        · subst hby
          rw [List.indexOf_cons_self, List.indexOf_cons_ne _ (fun hyb => hay hyb.symm)] at h
          omega
        · have ha2 : a ∈ ys.filter p := by
            rcases List.mem_cons.mp ha with h1 | h1
            · exact absurd h1 hay
            · exact h1
          have hb2 : b ∈ ys.filter p := by
            rcases List.mem_cons.mp hb with h1 | h1
            · exact absurd h1 hby
            · exact h1
          rw [List.indexOf_cons_ne _ (fun hya => hay hya.symm),
            List.indexOf_cons_ne _ (fun hyb => hby hyb.symm)] at h ⊢
          have := ih ha2 hb2 (by omega)
          omega
    · simp only [hy, Bool.false_eq_true, if_false] at ha hb h
      have hay : a ≠ y := by
        intro h1
        exact hy (h1 ▸ (List.mem_filter.mp ha).2)
      have hby : b ≠ y := by
        intro h1
        exact hy (h1 ▸ (List.mem_filter.mp hb).2)
      rw [List.indexOf_cons_ne _ (fun hya => hay hya.symm),
        List.indexOf_cons_ne _ (fun hyb => hby hyb.symm)]
      have := ih ha hb h
      omega

theorem pairwise_indexOf_dedupFirst (l : List String) :
    (dedupFirst l).Pairwise fun a b => l.indexOf a < l.indexOf b := by
  induction l using dedupFirst.induct with
  | case1 => simp [dedupFirst]
  | case2 x xs ih =>
    rw [dedupFirst]
    refine List.pairwise_cons.mpr ⟨?_, ?_⟩
    · intro b hb
      have hbf : b ∈ xs.filter (fun y => decide (y ≠ x)) := (mem_dedupFirst _ b).mp hb
      have hbx : b ≠ x := by simpa using (List.mem_filter.mp hbf).2
      rw [List.indexOf_cons_self, List.indexOf_cons_ne _ (fun hxb => hbx hxb.symm)]
      omega
    · refine List.Pairwise.imp_of_mem ?_ ih
      intro a b ha hb hr
      have haf := (mem_dedupFirst _ a).mp ha
      have hbf := (mem_dedupFirst _ b).mp hb
      have hax : a ≠ x := by simpa using (List.mem_filter.mp haf).2
      have hbx : b ≠ x := by simpa using (List.mem_filter.mp hbf).2
      have := indexOf_filter_lt _ xs a b haf hbf hr
      rw [List.indexOf_cons_ne _ (fun hxa => hax hxa.symm),
        List.indexOf_cons_ne _ (fun hxb => hbx hxb.symm)]
      omega

/-- C5: `top_5_issues` is obtained by counting occurrences of each
`issue_type` (first conjuncts: `dedupFirst` enumerates exactly the types seen,
in strictly increasing first-occurrence order), sorting the counted pairs in
non-increasing order of count with ties kept in first-seen order (the sorted
permutation `full`, whose count-classes each preserve first-seen order), and
truncating to at most five entries. -/
theorem claim_C5 (errors : List ErrorRecord) (total : Int) :
    (∀ t, t ∈ dedupFirst (errors.map ErrorRecord.issue_type)
        ↔ t ∈ errors.map ErrorRecord.issue_type)
  ∧ (dedupFirst (errors.map ErrorRecord.issue_type)).Pairwise
      (fun a b => (errors.map ErrorRecord.issue_type).indexOf a
        < (errors.map ErrorRecord.issue_type).indexOf b)
  ∧ ∃ full : List (String × Nat),
      full.Perm ((dedupFirst (errors.map ErrorRecord.issue_type)).map
        fun t => (t, (errors.map ErrorRecord.issue_type).count t))
      ∧ full.Sorted cntGe
      ∧ (∀ c : Nat, full.filter (fun p => decide (p.2 = c))
          = ((dedupFirst (errors.map ErrorRecord.issue_type)).filter
              fun t => decide ((errors.map ErrorRecord.issue_type).count t = c)).map
            (fun t => (t, c)))
      ∧ (calculate_metrics errors total).top_5_issues = full.take 5
      ∧ (calculate_metrics errors total).top_5_issues.length ≤ 5
      ∧ (calculate_metrics errors total).top_5_issues.Sorted cntGe := by
  refine ⟨fun t => mem_dedupFirst _ t, pairwise_indexOf_dedupFirst _,
    List.insertionSort cntGe (counter (errors.map ErrorRecord.issue_type)),
    ?_, List.sorted_insertionSort _ _, ?_, ?_, ?_, ?_⟩
  · rw [← counter_eq]
    exact List.perm_insertionSort cntGe _
  · intro c
    rw [filter_insertionSort, counter_eq, List.filter_map]
    have hcmp : ((fun p : String × Nat => decide (p.2 = c)) ∘
          fun t => (t, (errors.map ErrorRecord.issue_type).count t))
        = fun t => decide ((errors.map ErrorRecord.issue_type).count t = c) := rfl
    rw [hcmp]
    refine List.map_congr_left ?_
    intro t ht
    have h2 := (List.mem_filter.mp ht).2
    simp only [decide_eq_true_eq] at h2
    rw [h2]
  · rfl
  · exact List.length_take_le 5 _
  · exact List.Pairwise.sublist (List.take_sublist 5 _)
      (List.sorted_insertionSort cntGe (counter (errors.map ErrorRecord.issue_type)))

/-! ### Claim theorems: executive summary (C8) -/

/-- C8: `generate_executive_summary` is a pure function of the metrics dict:
the health wording is selected from `data_integrity_score` by the 90/75/50
bands, and exactly one of four paragraph templates is selected by testing
`invalid_records == 0` first, then `invalid_pct < 5`, then `invalid_pct < 15`,
else the fourth, with `invalid_pct = invalid_records/total_records*100` (0
when `total_records` is not positive); `invalid_records == 0` yields the
paragraph containing "no data integrity issues", and `invalid_pct` in
`[5, 15)` yields the paragraph containing "moderate data quality concerns". -/
theorem claim_C8 (m : Metrics) :
    (90 ≤ m.data_integrity_score →
      healthOf m.data_integrity_score = ("excellent", "demonstrates"))
  ∧ (75 ≤ m.data_integrity_score → m.data_integrity_score < 90 →
      healthOf m.data_integrity_score = ("good", "shows"))
  ∧ (50 ≤ m.data_integrity_score → m.data_integrity_score < 75 →
      healthOf m.data_integrity_score = ("fair", "indicates"))
  ∧ (m.data_integrity_score < 50 →
      healthOf m.data_integrity_score = ("poor", "reveals"))
  ∧ (m.invalid_records = 0 →
      generate_executive_summary m = summaryPerfect m
      ∧ strContains "no data integrity issues" (generate_executive_summary m))
  ∧ (∀ pct : ℚ,
      pct = (if 0 < m.total_records
        then (m.invalid_records : ℚ) / (m.total_records : ℚ) * 100 else 0) →
      (m.invalid_records ≠ 0 → pct < 5 →
        generate_executive_summary m = summaryStrong m pct)
      ∧ (m.invalid_records ≠ 0 → 5 ≤ pct → pct < 15 →
        generate_executive_summary m = summaryModerate m pct
        ∧ strContains "moderate data quality concerns" (generate_executive_summary m))
      ∧ (m.invalid_records ≠ 0 → 15 ≤ pct →
        generate_executive_summary m = summaryUrgent m pct)) := by
  refine ⟨?_, ?_, ?_, ?_, ?_, ?_⟩
  · intro h
    rw [healthOf, if_pos h]
  · intro h75 h90
    rw [healthOf, if_neg (not_le.mpr h90), if_pos h75]
  · intro h50 h75
    rw [healthOf, if_neg (not_le.mpr (lt_of_lt_of_le h75 (by norm_num))),
      if_neg (not_le.mpr h75), if_pos h50]
  · intro h50
    rw [healthOf, if_neg (not_le.mpr (lt_of_lt_of_le h50 (by norm_num))),
      if_neg (not_le.mpr (lt_of_lt_of_le h50 (by norm_num))), if_neg (not_le.mpr h50)]
  · intro h0
    have heq : generate_executive_summary m = summaryPerfect m := by
      rw [generate_executive_summary, if_pos h0]
    refine ⟨heq, ?_⟩
    rw [heq, summaryPerfect]
    exact strContains_appR _ _ _ (strContains_appR _ _ _ (strContains_appR _ _ _
      (strContains_appL _ _ _ (strContains_self _))))
  · intro pct hpct
    subst hpct
    refine ⟨?_, ?_, ?_⟩
    · intro h0 h5
      rw [generate_executive_summary, if_neg h0, if_pos h5]
    · intro h0 h5 h15
      have heq : generate_executive_summary m
          = summaryModerate m (if 0 < m.total_records
              then (m.invalid_records : ℚ) / (m.total_records : ℚ) * 100 else 0) := by
        rw [generate_executive_summary, if_neg h0, if_neg (not_lt.mpr h5), if_pos h15]
      refine ⟨heq, ?_⟩
      rw [heq, summaryModerate]
      exact strContains_appR _ _ _ (strContains_appR _ _ _
        (strContains_appL _ _ _ (strContains_self _)))
    · intro h0 h15
      rw [generate_executive_summary, if_neg h0,
        if_neg (not_lt.mpr (le_trans (by norm_num) h15)), if_neg (not_lt.mpr h15)]

theorem claim_C8_witness :
    healthOf demoM.data_integrity_score = ("excellent", "demonstrates")
  ∧ strContains "no data integrity issues" (generate_executive_summary demoM) :=
  ⟨(claim_C8 demoM).1 (by norm_num [demoM]),
   ((claim_C8 demoM).2.2.2.2.1 rfl).2⟩
